import Mathlib

/-!
Verification of the line-editor `ed` (Go, `src/main.go`) against its
natural-language specification.  The Go program is shallowly embedded:
pure helpers become Lean functions, the in-place mutation of `State`
becomes explicit state passing, and Go runtime panics (out-of-range
slice indexing, nil-handler calls) become an explicit `panic` outcome
of a result type.  Machine integers become `Int` (the values involved
stay far below any overflow boundary, and Go's `int` is 64-bit here).
-/

namespace Ed

/-- Editor mode, from the Go `Mode` enumeration. -/
inductive Mode where
  | modeAppend
  | modeCommand
  | modeQuit
deriving DecidableEq, Repr

/-- The editor state, from the Go `State` struct (the `bufio.Reader`
field is the external input stream and is not part of the data model). -/
structure EdState where
  mode : Mode
  buffer : List String
  changed : Bool
  lineNumbers : Bool
  filename : String
deriving DecidableEq, Repr

/-- Outcome of running a handler or a whole command: normal result,
a Go `error` return, or a Go runtime panic. -/
inductive GoResult (α : Type) where
  | ok (a : α)
  | err (msg : String)
  | panic
deriving DecidableEq, Repr

/-- Tags naming the eight registered handler functions of the Go
`commands` map. -/
inductive HandlerTag where
  | print
  | quit
  | appendM
  | readF
  | writeF
  | numbers
  | dot
  | newDoc
deriving DecidableEq, Repr

/-- The Go `Command` struct.  A nil Go handler is `none`. -/
structure Cmd where
  name : String
  args : List String
  handler : Option HandlerTag
deriving DecidableEq, Repr

/-- Outcome of `parseCommand`: a command, a Go `error`, or a panic. -/
inductive ParseResult where
  | ok (c : Cmd)
  | err (msg : String)
  | panic
deriving DecidableEq, Repr

/-! ### Go string helpers: `unicode.IsSpace`, `strings.TrimSpace`,
`strings.Fields`, `fmt.Sprintf "%d"`, `strconv.Atoi` -/

/-- Go `unicode.IsSpace`: the Unicode `White_Space` property — ASCII
whitespace, NEL, NBSP, OGHAM SPACE MARK, the EN QUAD .. HAIR SPACE
block, LINE and PARAGRAPH SEPARATOR, NARROW NO-BREAK SPACE, MEDIUM
MATHEMATICAL SPACE and IDEOGRAPHIC SPACE. -/
def goIsSpace (c : Char) : Bool :=
  c == ' ' || c == '\t' || c == '\n' || c == '\x0b' || c == '\x0c' ||
  c == '\r' || c == '\x85' || c == '\xa0' ||
  c == '\u1680' || ('\u2000' ≤ c && c ≤ '\u200a') ||
  c == '\u2028' || c == '\u2029' || c == '\u202f' ||
  c == '\u205f' || c == '\u3000'

/-- Go `strings.TrimSpace` on a character list: drop leading and
trailing whitespace. -/
def goTrimSpaceList (cs : List Char) : List Char :=
  ((cs.dropWhile goIsSpace).reverse.dropWhile goIsSpace).reverse

/-- Go `strings.TrimSpace`. -/
def goTrimSpace (s : String) : String :=
  String.mk (goTrimSpaceList s.data)

/-- Accumulator loop for Go `strings.Fields`: split around runs of
whitespace, keeping only the non-empty maximal runs of non-space. -/
def fieldsAux : List Char → List Char → List String
  | [], cur => if cur = [] then [] else [String.mk cur]
  | c :: rest, cur =>
    if goIsSpace c then
      if cur = [] then fieldsAux rest []
      else String.mk cur :: fieldsAux rest []
    else fieldsAux rest (cur ++ [c])

/-- Go `strings.Fields`. -/
def goFields (s : String) : List String := fieldsAux s.data []

/-- The decimal digit character for `d` (with `d ≥ 9` collapsed to
`'9'`; callers only pass `d = n % 10 < 10`). -/
def digitChar (d : Nat) : Char :=
  if d = 0 then '0' else if d = 1 then '1' else if d = 2 then '2'
  else if d = 3 then '3' else if d = 4 then '4' else if d = 5 then '5'
  else if d = 6 then '6' else if d = 7 then '7' else if d = 8 then '8'
  else '9'

/-- Fuel-driven decimal printer: prepend the digits of `n` (most
significant first) in front of `acc`.  `fuel ≥ n` suffices because the
argument is divided by 10 each step. -/
def natCharsAux : Nat → Nat → List Char → List Char
  | 0, _, acc => acc
  | fuel + 1, n, acc =>
    if n = 0 then acc
    else natCharsAux fuel (n / 10) (digitChar (n % 10) :: acc)

/-- Go `fmt.Sprintf "%d"` for a non-negative value. -/
def sprintfNat (n : Nat) : String :=
  if n = 0 then "0" else String.mk (natCharsAux n n [])

/-- Go `fmt.Sprintf "%d"` for an `int`. -/
def sprintfInt (i : Int) : String :=
  if i < 0 then "-" ++ sprintfNat i.natAbs else sprintfNat i.natAbs

/-- One step of decimal accumulation, as done by `strconv.Atoi`. -/
def dfold (a : Nat) (c : Char) : Nat := a * 10 + (c.toNat - 48)

/-- The value of an all-digit character list; `none` when the list is
empty or contains a non-digit (Go `strconv.Atoi` returns an error
then, and the callers in `print` ignore the error, keeping value 0). -/
def digitsVal (cs : List Char) : Option Nat :=
  if cs = [] then none
  else if cs.all Char.isDigit then some (cs.foldl dfold 0)
  else none

/-- Go `strconv.Atoi` with the error ignored, as in `(*State).print`:
optional sign, then decimal digits; any failure yields 0. -/
def goAtoi (s : String) : Int :=
  match s.data with
  | [] => 0
  | c :: rest =>
    if c = '-' then
      match digitsVal rest with
      | some n => -(n : Int)
      | none => 0
    else if c = '+' then
      match digitsVal rest with
      | some n => (n : Int)
      | none => 0
    else
      match digitsVal (c :: rest) with
      | some n => (n : Int)
      | none => 0

/-! ### Peek classifiers (`peekDot`, `peekLetter`, `peekAddr`)

`utf8.DecodeRune` on empty input yields `RuneError`, which none of the
three classifiers accept, so each is `false` on the empty list.  The
command alphabet is ASCII, so the first rune is the first character. -/

/-- Go `peekDot`: the first rune is `'.'`. -/
def peekDot : List Char → Bool
  | [] => false
  | c :: _ => c == '.'

/-- Go `peekLetter`: the first rune is a letter. -/
def peekLetter : List Char → Bool
  | [] => false
  | c :: _ => c.isAlpha

/-- Go `peekAddr`: the first rune is `'^'`, `','` or a digit. -/
def peekAddr : List Char → Bool
  | [] => false
  | c :: _ => c == '^' || c == ',' || c.isDigit

/-! ### Address resolver (`matchHere`) -/

/-- The digit-accumulation loop of `matchHere`: Go reads `(*data)[p]`
before testing membership in the digit map, so running past the end of
the slice — empty input, or input that is all digits — is an
index-out-of-range panic, modelled as `none`. -/
def digitLoop : List Char → Int → Option (Int × List Char)
  | [], _ => none
  | c :: rest, acc =>
    if c.isDigit then digitLoop rest (acc * 10 + ((c.toNat : Int) - 48))
    else some (acc, c :: rest)

/-- Go `(*State).matchHere`: consume `anchor? sign? digits` from the
front of `data` and return the resolved position together with the
remaining input.  `none` is a Go panic: indexing `(*data)[0]` on empty
input at the anchor or sign decision point, or the digit loop running
past the end. -/
def matchHere (bufLen : Nat) (data : List Char) : Option (Int × List Char) :=
  match data with
  | [] => none
  | c :: rest =>
    let a : Int × List Char :=
      if c = '^' then (1, rest)
      else if c = '$' then ((bufLen : Int), rest)
      else (0, c :: rest)
    match a.2 with
    | [] => none
    | c2 :: rest2 =>
      let b : Int × List Char :=
        if c2 = '-' then (-1, rest2)
        else if c2 = '+' then (1, rest2)
        else (1, c2 :: rest2)
      match digitLoop b.2 0 with
      | none => none
      | some (acc, rest3) => some (a.1 + b.1 * acc, rest3)

/-! ### Command parser (`parseCommand`) -/

/-- The fixed Go `commands` map from command letter to handler. -/
def commands (c : Char) : Option HandlerTag :=
  if c = 'p' then some .print
  else if c = 'q' then some .quit
  else if c = 'a' then some .appendM
  else if c = 'r' then some .readF
  else if c = 'w' then some .writeF
  else if c = 'l' then some .numbers
  else if c = '.' then some .dot
  else if c = 'n' then some .newDoc
  else none

/-- Shared tail of the address-first branch of `parseCommand`: after
the address prefix is consumed, require a registered command letter
and build the command with the two resolved bounds as leading
arguments. -/
def finishAddr (top last : Int) (line : List Char) : ParseResult :=
  if peekLetter line then
    match line with
    | [] => .err "command unknown or syntax error"
    | c :: rest =>
      match commands c with
      | none => .err "Command unknown!"
      | some h =>
        let tail := goTrimSpace (String.mk rest)
        .ok { name := String.mk [c],
              args := [sprintfInt top, sprintfInt last] ++ goFields tail,
              handler := some h }
  else .err "command unknown or syntax error"

/-- Go `(*State).parseCommand`: strip the sentinel when more than one
byte is present, then classify as bare-sentinel, letter-first, or
address-first; anything else is a syntax error.  `.panic` marks the Go
runtime panics reachable from `matchHere` and the `line[0]` comma
check. -/
def parseCommand (s : EdState) (line0 : List Char) : ParseResult :=
  let line := if line0.length > 1 then line0.tail else line0
  if peekDot line then
    match line with
    | [] => .err "command unknown or syntax error"
    | c :: _ => .ok { name := String.mk [c], args := [], handler := commands c }
  else if peekLetter line then
    match line with
    | [] => .err "command unknown or syntax error"
    | c :: rest =>
      match commands c with
      | none => .err "Command unknown!"
      | some h =>
        let top : Int := 0
        let last : Int := s.buffer.length
        let tail := goTrimSpace (String.mk rest)
        .ok { name := String.mk [c],
              args := [sprintfInt top, sprintfInt last] ++ goFields tail,
              handler := some h }
  else if peekAddr line then
    match matchHere s.buffer.length line with
    | none => .panic
    | some (top, line1) =>
      match line1 with
      | [] => .panic
      | c :: rest =>
        if c = ',' then
          match matchHere s.buffer.length rest with
          | none => .panic
          | some (last, line2) => finishAddr top last line2
        else finishAddr top (-1) (c :: rest)
  else .err "command unknown or syntax error"

/-! ### Handlers -/

/-- The external file system the `r` and `w` wrappers talk to; the
spec treats file persistence as an external collaborator. -/
structure FileSys where
  readF : String → Except String (List String)
  writeF : String → List String → Except String Unit

/-- The clamping performed by `(*State).print` on the two decoded
address arguments: both are decremented, a negative start is raised to
0, an absent (negative) end becomes a one-line range, and an end past
the buffer is lowered to the buffer length.  Nothing forces
`start ≤ end`. -/
def printRange (bufLen : Nat) (a0 a1 : Int) : Int × Int :=
  let top1 := a0 - 1
  let last1 := a1 - 1
  let top := if top1 < 0 then 0 else top1
  let last := if last1 < 0 then top + 1 else last1 + 1
  (top, if (bufLen : Int) < last then (bufLen : Int) else last)

/-- The numbering loop of `print`: `li` starts at the range start and
the printed number is `li + 1`, left-justified in a 4-wide field. -/
def padNum (i : Int) : String :=
  let s := sprintfInt i
  if s.length < 4 then s ++ String.mk (List.replicate (4 - s.length) ' ') else s

/-- Number the lines of the printed slice, starting at index `li`. -/
def numberLines : Int → List String → List String
  | _, [] => []
  | li, l :: ls => (padNum (li + 1) ++ l) :: numberLines (li + 1) ls

/-- Go `(*State).print`: error on an empty buffer, otherwise decode
the two leading arguments, clamp, and print `buffer[top:last]`.
Reading a missing argument, or slicing with `top > last`, is a Go
panic. -/
def printH (s : EdState) (args : List String) : GoResult (EdState × List String) :=
  if s.buffer.length = 0 then .err "text buffer is empty!"
  else if args.length < 2 then .panic
  else
    let r := printRange s.buffer.length (goAtoi (args.getD 0 "")) (goAtoi (args.getD 1 ""))
    if r.1 ≤ r.2 then
      let slice := (s.buffer.drop r.1.toNat).take (r.2 - r.1).toNat
      .ok (s, if s.lineNumbers then numberLines r.1 slice else slice)
    else .panic

/-- Go `(*State).readFile`: replace the buffer with the lines read
from the file named by the first argument and remember that filename.
The `changed` flag is not touched. -/
def readFileH (fs : FileSys) (s : EdState) (args : List String) :
    GoResult (EdState × List String) :=
  if args.length = 0 then .err "File name undefined!"
  else
    let fn := goTrimSpace (args.getD 0 "")
    match fs.readF fn with
    | .error e => .err e
    | .ok bb => .ok ({ s with buffer := bb, filename := fn }, [])

/-- Go `(*State).writeFile`: write the buffer to the argument filename
or the remembered one, and clear the `changed` flag on success. -/
def writeFileH (fs : FileSys) (s : EdState) (args : List String) :
    GoResult (EdState × List String) :=
  if s.filename.length = 0 ∧ args.length = 0 then .err "File name undefined!\n"
  else
    let fn := if args.length > 0 then goTrimSpace (args.getD 0 "") else s.filename
    match fs.writeF fn s.buffer with
    | .error e => .err e
    | .ok _ => .ok ({ s with changed := false }, [])

/-- Dispatch to the Go handler named by a tag.  The mode-changing and
flag-toggling handlers and `new` are the one-line Go methods of the
same names. -/
def runHandler (fs : FileSys) : HandlerTag → EdState → List String →
    GoResult (EdState × List String)
  | .quit, s, _ => .ok ({ s with mode := .modeQuit }, [])
  | .dot, s, _ => .ok ({ s with mode := .modeCommand }, [])
  | .appendM, s, _ => .ok ({ s with mode := .modeAppend }, [])
  | .numbers, s, _ => .ok ({ s with lineNumbers := !s.lineNumbers }, [])
  | .newDoc, s, _ => .ok ({ s with buffer := [] }, [])
  | .print, s, args => printH s args
  | .readF, s, args => readFileH fs s args
  | .writeF, s, args => writeFileH fs s args

/-- Go `(*State).HandleCommand`: parse, then run the handler.  Running
a nil handler is a Go panic. -/
def HandleCommand (fs : FileSys) (s : EdState) (line : List Char) :
    GoResult (EdState × List String) :=
  match parseCommand s line with
  | .err m => .err m
  | .panic => .panic
  | .ok cmd =>
    match cmd.handler with
    | none => .panic
    | some h => runHandler fs h s cmd.args

/-- One iteration of the Go `main` loop on an already-read line:
`line[0]` on an empty line is a panic; a sentinel line is handled as a
command, whose error (if any) is printed while the state is kept; any
other line is appended to the buffer in append mode, setting the
`changed` flag, and ignored otherwise. -/
def processLine (fs : FileSys) (s : EdState) (line : List Char) :
    Option (EdState × List String) :=
  match line with
  | [] => none
  | c :: _ =>
    if c = '.' then
      match HandleCommand fs s line with
      | .panic => none
      | .err m => some (s, [m])
      | .ok (s', out) => some (s', out)
    else if s.mode = .modeAppend then
      some ({ s with buffer := s.buffer ++ [String.mk line], changed := true }, [])
    else some (s, [])

/-! ### File persistence content model (`readFile`, `writeFile`) -/

/-- The byte stream Go `writeFile` produces: each buffer line followed
by a newline. -/
def writeContentGo (buffer : List String) : List Char :=
  buffer.foldr (fun l acc => l.data ++ '\n' :: acc) []

/-- The `ReadString('\n')` loop of Go `readFile`: chunks up to and
including each newline are trimmed and collected; the final chunk at
end of file is collected only when non-empty. -/
def readLinesAux : List Char → List Char → List String
  | [], chunk => if chunk = [] then [] else [String.mk (goTrimSpaceList chunk)]
  | c :: rest, chunk =>
    if c = '\n' then
      String.mk (goTrimSpaceList (chunk ++ [c])) :: readLinesAux rest []
    else readLinesAux rest (chunk ++ [c])

/-- Go `readFile` on a byte stream: the list of trimmed lines. -/
def readLinesGo (content : List Char) : List String := readLinesAux content []

/-! ### Concrete states and file systems used by the closed theorems -/

/-- A file system on which every read fails. -/
def fsEmpty : FileSys := ⟨fun _ => .error "no such file", fun _ _ => .ok ()⟩

/-- A file system on which every read yields the single line `x`. -/
def fsAny : FileSys := ⟨fun _ => .ok ["x"], fun _ _ => .ok ()⟩

/-- The freshly started editor state. -/
def st0 : EdState :=
  { mode := .modeCommand, buffer := [], changed := false,
    lineNumbers := false, filename := "" }

/-- A command-mode state holding the three-line example buffer of the
specification. -/
def st3 : EdState :=
  { mode := .modeCommand, buffer := ["alpha", "beta", "gamma"],
    changed := false, lineNumbers := false, filename := "" }

/-- The state reached from `st0` by a successful `r` command against
`fsAny`: the buffer and filename are replaced, the `changed` flag is
not. -/
def st0AfterRead : EdState :=
  { mode := .modeCommand, buffer := ["x"], changed := false,
    lineNumbers := false, filename := "0" }

end Ed

namespace Ed

/-! ### Decimal print/parse roundtrip -/

theorem digitChar_isDigit (d : Nat) : (digitChar d).isDigit = true := by
  unfold digitChar
  repeat' split
  all_goals decide

theorem digitChar_val (d : Nat) (h : d < 10) : (digitChar d).toNat - 48 = d := by
  interval_cases d <;> decide

theorem natCharsAux_zero (fuel : Nat) (acc : List Char) :
    natCharsAux fuel 0 acc = acc := by
  cases fuel <;> rfl

theorem natCharsAux_foldl (fuel : Nat) : ∀ n acc, n ≤ fuel →
    (natCharsAux fuel n acc).foldl dfold 0 = acc.foldl dfold n := by
  induction fuel with
  | zero =>
    intro n acc h
    interval_cases n
    rfl
  | succ fuel ih =>
    intro n acc h
    by_cases hn : n = 0
    · subst hn; rw [natCharsAux_zero]
    · rw [natCharsAux, if_neg hn, ih (n / 10) _ (by omega), List.foldl_cons]
      have hd : dfold (n / 10) (digitChar (n % 10)) = n := by
        rw [dfold, digitChar_val (n % 10) (by omega)]
        omega
      rw [hd]

theorem natCharsAux_all (fuel : Nat) : ∀ n acc,
    (natCharsAux fuel n acc).all Char.isDigit = acc.all Char.isDigit := by
  induction fuel with
  | zero => intro n acc; rfl
  | succ fuel ih =>
    intro n acc
    by_cases hn : n = 0
    · subst hn; rw [natCharsAux_zero]
    · rw [natCharsAux, if_neg hn, ih, List.all_cons, digitChar_isDigit,
        Bool.true_and]

theorem natCharsAux_ne_nil (fuel : Nat) : ∀ n acc, n ≠ 0 → n ≤ fuel →
    natCharsAux fuel n acc ≠ [] := by
  induction fuel with
  | zero => intro n acc hn h; omega
  | succ fuel ih =>
    intro n acc hn h
    rw [natCharsAux, if_neg hn]
    by_cases h10 : n / 10 = 0
    · rw [h10, natCharsAux_zero]; simp
    · exact ih (n / 10) _ h10 (by omega)

theorem goAtoi_sprintfNat (n : Nat) : goAtoi (sprintfNat n) = (n : Int) := by
  by_cases hn : n = 0
  · subst hn; decide
  · rw [sprintfNat, if_neg hn]
    have hne := natCharsAux_ne_nil n n [] hn (Nat.le_refl n)
    have hall : (natCharsAux n n []).all Char.isDigit = true := natCharsAux_all n n []
    have hfold : (natCharsAux n n []).foldl dfold 0 = n := by
      rw [natCharsAux_foldl n n [] (Nat.le_refl n)]; rfl
    have hdv : digitsVal (natCharsAux n n []) = some n := by
      rw [digitsVal, if_neg hne, if_pos hall, hfold]
    cases hc : natCharsAux n n [] with
    | nil => exact absurd hc hne
    | cons c rest =>
      rw [hc] at hdv hall
      have hcd : c.isDigit = true := by
        rw [List.all_cons, Bool.and_eq_true] at hall
        exact hall.1
      have hc1 : c ≠ '-' := by intro h; rw [h] at hcd; exact absurd hcd (by decide)
      have hc2 : c ≠ '+' := by intro h; rw [h] at hcd; exact absurd hcd (by decide)
      show goAtoi (String.mk (c :: rest)) = (n : Int)
      rw [goAtoi]
      simp only [if_neg hc1, if_neg hc2, hdv]

theorem goAtoi_sprintf_ofNat (n : Nat) : goAtoi (sprintfInt (n : Int)) = (n : Int) := by
  rw [sprintfInt, if_neg (by omega), Int.natAbs_ofNat, goAtoi_sprintfNat]

/-! ### Whitespace-trimming and read-loop lemmas for the round trip -/

theorem dropWhile_length_le (p : Char → Bool) (l : List Char) :
    (l.dropWhile p).length ≤ l.length := by
  induction l with
  | nil => simp
  | cons a l ih =>
    rw [List.dropWhile_cons]
    split
    · exact Nat.le_succ_of_le ih
    · simp

theorem dropWhile_eq_self_of_length (p : Char → Bool) (l : List Char)
    (h : (l.dropWhile p).length = l.length) : l.dropWhile p = l := by
  cases l with
  | nil => simp
  | cons a l =>
    by_cases hpa : p a
    · rw [List.dropWhile_cons, if_pos hpa] at h ⊢
      have := dropWhile_length_le p l
      simp at h
      omega
    · rw [List.dropWhile_cons, if_neg hpa]

theorem trim_eq_self_parts (xs : List Char) (h : goTrimSpaceList xs = xs) :
    xs.dropWhile goIsSpace = xs ∧ xs.reverse.dropWhile goIsSpace = xs.reverse := by
  have hlen := congrArg List.length h
  rw [goTrimSpaceList, List.length_reverse] at hlen
  have l1 : ((xs.dropWhile goIsSpace).reverse.dropWhile goIsSpace).length ≤
      (xs.dropWhile goIsSpace).length := by
    have := dropWhile_length_le goIsSpace (xs.dropWhile goIsSpace).reverse
    simpa using this
  have l2 := dropWhile_length_le goIsSpace xs
  have hd : xs.dropWhile goIsSpace = xs :=
    dropWhile_eq_self_of_length _ _ (by omega)
  refine ⟨hd, ?_⟩
  rw [goTrimSpaceList, hd] at h
  have := congrArg List.reverse h
  rwa [List.reverse_reverse] at this

theorem trim_append_newline (xs : List Char) (h : goTrimSpaceList xs = xs) :
    goTrimSpaceList (xs ++ ['\n']) = xs := by
  obtain ⟨h1, h2⟩ := trim_eq_self_parts xs h
  cases xs with
  | nil => rfl
  | cons a l =>
    have hpa : goIsSpace a = false := by
      by_contra hc
      have hpa : goIsSpace a = true := by
        cases hga : goIsSpace a
        · exact absurd hga hc
        · rfl
      rw [List.dropWhile_cons, if_pos hpa] at h1
      have := dropWhile_length_le goIsSpace l
      have := congrArg List.length h1
      simp at this
      omega
    rw [goTrimSpaceList, List.cons_append, List.dropWhile_cons,
      if_neg (by simp [hpa]), ← List.cons_append, List.reverse_append]
    show ((['\n'].reverse ++ (a :: l).reverse).dropWhile goIsSpace).reverse = a :: l
    rw [show (['\n'].reverse : List Char) = ['\n'] from rfl, List.cons_append,
      List.nil_append, List.dropWhile_cons, if_pos (by decide), h2,
      List.reverse_reverse]

theorem readLinesAux_no_newline (xs : List Char) : ∀ rest chunk,
    (∀ c ∈ xs, c ≠ '\n') →
    readLinesAux (xs ++ rest) chunk = readLinesAux rest (chunk ++ xs) := by
  induction xs with
  | nil => intro rest chunk _; simp
  | cons x xs ih =>
    intro rest chunk h
    have hx : x ≠ '\n' := h x (by simp)
    rw [List.cons_append, readLinesAux, if_neg hx,
      ih rest (chunk ++ [x]) (fun c hc => h c (by simp [hc])),
      List.append_assoc, List.singleton_append]

theorem stringMk_data (s : String) : String.mk s.data = s := rfl

/-! ### Parser and print-handler helper lemmas -/

theorem parseCommand_dotP (s : EdState) :
    parseCommand s ['.', 'p'] =
      .ok { name := "p", args := [sprintfInt 0, sprintfInt (s.buffer.length : Int)],
            handler := some .print } := rfl

theorem printRange_whole (n : Nat) (h : 1 ≤ n) :
    printRange n 0 (n : Int) = (0, (n : Int)) := by
  simp only [printRange]
  rw [if_pos (by omega : (0 : Int) - 1 < 0),
      if_neg (show ¬((n : Int) - 1 < 0) by omega),
      if_neg (show ¬((n : Int) < (n : Int) - 1 + 1) by omega)]
  congr 1
  omega

theorem printH_whole (s : EdState) (h : s.buffer ≠ []) (hn : s.lineNumbers = false) :
    printH s [sprintfInt 0, sprintfInt (s.buffer.length : Int)] = .ok (s, s.buffer) := by
  have hlen : s.buffer.length ≠ 0 := by
    simpa [List.length_eq_zero] using h
  have ha0 : goAtoi ([sprintfInt 0, sprintfInt (s.buffer.length : Int)].getD 0 "") =
      (0 : Int) := rfl
  have ha1 : goAtoi ([sprintfInt 0, sprintfInt (s.buffer.length : Int)].getD 1 "") =
      (s.buffer.length : Int) := by
    show goAtoi (sprintfInt (s.buffer.length : Int)) = (s.buffer.length : Int)
    exact goAtoi_sprintf_ofNat s.buffer.length
  simp only [printH, if_neg hlen]
  rw [if_neg (by simp)]
  rw [ha0, ha1, printRange_whole s.buffer.length (by omega)]
  rw [if_pos (by positivity : (0 : Int) ≤ (s.buffer.length : Int))]
  simp [hn, List.take_length]

/-! ### The claims -/

/-- C1: the claim states that every resolved range used by the print
handler to slice the buffer satisfies `0 ≤ start ≤ end ≤ bufferLength`
after clamping, for every combination of in-range, negative and
overflowing inputs, explicitly including reversed two-address ranges
such as `5,2`.  The code violates this: on the three-line buffer, the
command `.5,2p` yields the clamped pair `(4, 2)` with `start > end`,
and slicing `buffer[4:2]` is a Go runtime panic, so dispatching the
command panics instead of maintaining the invariant. -/
theorem c1_printClampViolation :
    HandleCommand fsEmpty st3 ['.', '5', ',', '2', 'p'] = GoResult.panic ∧
    printRange 3 5 2 = (4, 2) ∧
    ¬((0 : Int) ≤ 4 ∧ (4 : Int) ≤ 2 ∧ (2 : Int) ≤ 3) :=
  ⟨rfl, rfl, by decide⟩

/-- C2: the claim states that an address-first command line whose
input ends during address consumption fails with a parse error rather
than crashing; in particular a digits-only command such as `5` after
the sentinel should yield a parse error.  The code instead panics: the
digit loop of `matchHere` indexes one position past the end of the
slice, so `.5` is a runtime panic, not an error return, and the panic
propagates through `parseCommand` and the main loop. -/
theorem c2_digitsOnlyPanic :
    parseCommand st3 ['.', '5'] = ParseResult.panic ∧
    matchHere 3 ['5'] = none ∧
    processLine fsEmpty st3 ['.', '5'] = none :=
  ⟨rfl, rfl, rfl⟩

/-- C3 (counterexample): the claim states that the anchor `^` uses
base 0 and that the expression `^` alone resolves to position 0.  On a
three-line buffer, `^` followed by the letter `p` resolves to 1, not
0, and the expression `^` alone panics (`none`) because the sign
decision point reads from empty input. -/
theorem c3_caretCounterexample :
    matchHere 3 ['^', 'p'] = some (1, ['p']) ∧ (1 : Int) ≠ 0 ∧
    matchHere 3 ['^'] = none :=
  ⟨rfl, by decide, rfl⟩

/-- C3 (amended): resolving an address expression whose anchor is `^`
uses base 1 — the first line in the 1-based numbering that the print
handler later decrements — so `^` followed by any non-sign, non-digit
byte resolves to position 1; the expression `^` alone, with no sign,
no digits and nothing following, makes the resolver panic on empty
input instead of resolving. -/
theorem c3_caretBaseOne (bufLen : Nat) (c : Char) (rest : List Char)
    (h1 : c ≠ '-') (h2 : c ≠ '+') (h3 : c.isDigit = false) :
    matchHere bufLen ('^' :: c :: rest) = some (1, c :: rest) ∧
    matchHere bufLen ['^'] = none := by
  constructor
  · simp [matchHere, digitLoop, h1, h2, h3]
  · rfl

/-- Witness for C3 at buffer length 5 and follower `q`. -/
theorem c3_caretBaseOne_witness :
    matchHere 5 ['^', 'q'] = some (1, ['q']) ∧ matchHere 5 ['^'] = none :=
  c3_caretBaseOne 5 'q' [] (by decide) (by decide) (by decide)

/-- C4 (counterexample): the claim states the dirty flag is true after
a successful read-file command replaces the buffer.  Starting from the
fresh state (dirty flag false) and a file system on which the read
succeeds, the `r` command succeeds, replaces the buffer and filename,
and leaves the dirty flag false. -/
theorem c4_readDirtyCounterexample :
    HandleCommand fsAny st0 ['.', 'r', ' ', 'f'] = .ok (st0AfterRead, []) ∧
    st0AfterRead.changed = false :=
  ⟨rfl, rfl⟩

/-- C4 (amended): appending a line in append mode sets the dirty flag;
a successful write clears it; every other handler — including a
successful read-file command — leaves the dirty flag unchanged, so a
load does not set it. -/
theorem c4_dirtyFlag :
    (∀ (fs : FileSys) (tag : HandlerTag) (s : EdState) (args : List String)
        (s' : EdState) (out : List String), tag ≠ HandlerTag.writeF →
        runHandler fs tag s args = .ok (s', out) → s'.changed = s.changed) ∧
    (∀ (fs : FileSys) (s : EdState) (args : List String) (s' : EdState)
        (out : List String),
        runHandler fs .writeF s args = .ok (s', out) → s'.changed = false) ∧
    (∀ (fs : FileSys) (s : EdState) (line : List Char),
        s.mode = .modeAppend → line ≠ [] → line.headD '.' ≠ '.' →
        processLine fs s line =
          some ({ s with buffer := s.buffer ++ [String.mk line],
                         changed := true }, [])) := by
  refine ⟨?_, ?_, ?_⟩
  · intro fs tag s args s' out hne hok
    cases tag with
    | writeF => exact absurd rfl hne
    | print =>
      simp only [runHandler, printH] at hok
      split at hok
      · exact absurd hok (by simp)
      · split at hok
        · exact absurd hok (by simp)
        · split at hok
          · simp only [GoResult.ok.injEq, Prod.mk.injEq] at hok
            rw [← hok.1]
          · exact absurd hok (by simp)
    | readF =>
      simp only [runHandler, readFileH] at hok
      split at hok
      · exact absurd hok (by simp)
      · split at hok
        · exact absurd hok (by simp)
        · simp only [GoResult.ok.injEq, Prod.mk.injEq] at hok
          rw [← hok.1]
    | quit =>
      simp only [runHandler, GoResult.ok.injEq, Prod.mk.injEq] at hok
      rw [← hok.1]
    | dot =>
      simp only [runHandler, GoResult.ok.injEq, Prod.mk.injEq] at hok
      rw [← hok.1]
    | appendM =>
      simp only [runHandler, GoResult.ok.injEq, Prod.mk.injEq] at hok
      rw [← hok.1]
    | numbers =>
      simp only [runHandler, GoResult.ok.injEq, Prod.mk.injEq] at hok
      rw [← hok.1]
    | newDoc =>
      simp only [runHandler, GoResult.ok.injEq, Prod.mk.injEq] at hok
      rw [← hok.1]
  · intro fs s args s' out hok
    simp only [runHandler, writeFileH] at hok
    split at hok
    · exact absurd hok (by simp)
    · split at hok
      · exact absurd hok (by simp)
      · simp only [GoResult.ok.injEq, Prod.mk.injEq] at hok
        rw [← hok.1]
  · intro fs s line hm hne hh
    cases line with
    | nil => exact absurd rfl hne
    | cons c rest =>
      have hc : c ≠ '.' := by simpa using hh
      simp only [processLine, if_neg hc, if_pos hm]

/-- Witness for C4: a successful read keeps the dirty flag, a
successful write clears it, and appending the line `x` in append mode
sets it. -/
theorem c4_dirtyFlag_witness :
    st0AfterRead.changed = st0.changed ∧
    ({ st0 with changed := false } : EdState).changed = false ∧
    processLine fsAny { st0 with mode := .modeAppend } ['x'] =
      some ({ st0 with mode := .modeAppend, buffer := ["x"],
                       changed := true }, []) :=
  ⟨c4_dirtyFlag.1 fsAny .readF st0 ["0", "0"] st0AfterRead [] (by decide) rfl,
   c4_dirtyFlag.2.1 fsAny st0 ["f"] { st0 with changed := false } [] rfl,
   c4_dirtyFlag.2.2 fsAny { st0 with mode := .modeAppend } ['x'] rfl
     (by decide) (by decide)⟩

/-- C5 (counterexample): the claim states that writing any buffer and
reading it back yields an equal sequence of lines, with no
trailing-whitespace drift "since both sides trim".  The write side
does not trim: the one-line buffer whose line is `a` followed by a
space reads back as plain `a`, a different buffer. -/
theorem c5_trimCounterexample :
    readLinesGo (writeContentGo ["a "]) = ["a"] ∧ ("a" : String) ≠ "a " :=
  ⟨rfl, by decide⟩

/-- C5 (amended): writing a buffer and reading it back yields the
original buffer provided every line is free of embedded newlines and
is unchanged by whitespace trimming; lines with leading or trailing
whitespace are trimmed on read only, because `writeFile` stores lines
verbatim while `readFile` trims each one. -/
theorem c5_roundTrip (buffer : List String)
    (h : ∀ l ∈ buffer, (∀ c ∈ l.data, c ≠ '\n') ∧ goTrimSpaceList l.data = l.data) :
    readLinesGo (writeContentGo buffer) = buffer := by
  induction buffer with
  | nil => rfl
  | cons l ls ih =>
    obtain ⟨hnl, htr⟩ := h l (by simp)
    have hw : writeContentGo (l :: ls) = l.data ++ '\n' :: writeContentGo ls := rfl
    rw [readLinesGo, hw, readLinesAux_no_newline l.data _ [] hnl, List.nil_append,
      readLinesAux, if_pos rfl, trim_append_newline l.data htr, stringMk_data]
    rw [show readLinesAux (writeContentGo ls) [] = readLinesGo (writeContentGo ls)
          from rfl]
    rw [ih (fun l' hl' => h l' (by simp [hl']))]

/-- Witness for C5 on the two-line buffer `alpha`, `beta`. -/
theorem c5_roundTrip_witness :
    readLinesGo (writeContentGo ["alpha", "beta"]) = ["alpha", "beta"] :=
  c5_roundTrip ["alpha", "beta"] (by decide)

/-- C6: the claim states that the bare-sentinel classification applies
exactly when the remaining content is the single sentinel byte, so
content that merely starts with the sentinel and continues (sentinel
followed by a letter) should not be classified as bare-sentinel.  The
code classifies by the first byte only: with remaining content `.x`
(not equal to the bare `.`), parsing still yields the leave-append-mode
command, exactly as it does for the true bare sentinel. -/
theorem c6_dotPrefixClassified :
    parseCommand st3 ['.', '.', 'x'] =
      .ok { name := ".", args := [], handler := some HandlerTag.dot } ∧
    (['.', 'x'] : List Char) ≠ ['.'] ∧
    parseCommand st3 ['.', '.'] =
      .ok { name := ".", args := [], handler := some HandlerTag.dot } :=
  ⟨rfl, by decide, rfl⟩

/-- C7: on every non-empty buffer, a letter-first `p` command with no
address prefix resolves to the entire current buffer: parsing `.p`
builds the print command with the whole-buffer default bounds, and
dispatching it prints every line of the buffer in order (state
unchanged), shown here with line numbering off. -/
theorem c7_letterWholeBuffer (fs : FileSys) (s : EdState)
    (h : s.buffer ≠ []) (hn : s.lineNumbers = false) :
    HandleCommand fs s ['.', 'p'] = .ok (s, s.buffer) := by
  simp only [HandleCommand, parseCommand_dotP, runHandler]
  exact printH_whole s h hn

/-- Witness for C7 on the three-line example buffer. -/
theorem c7_letterWholeBuffer_witness :
    HandleCommand fsEmpty st3 ['.', 'p'] = .ok (st3, ["alpha", "beta", "gamma"]) :=
  c7_letterWholeBuffer fsEmpty st3 (by decide) rfl

/-- C8: on the buffer `alpha`, `beta`, `gamma`, parsing and
dispatching `2p` prints exactly the single line `beta`: the 1-based
address 2 becomes 0-based index 1 and the absent range end defaults to
the one-line half-open range `[1, 2)`. -/
theorem c8_twoPrintsBeta :
    HandleCommand fsEmpty st3 ['.', '2', 'p'] = .ok (st3, ["beta"]) := rfl

/-- C9: when the buffer has zero lines, dispatching the print command
`p` fails with the buffer-empty error, and the main loop keeps the
editor state unchanged, merely displaying the message. -/
theorem c9_emptyPrintError (fs : FileSys) (s : EdState) (h : s.buffer = []) :
    processLine fs s ['.', 'p'] = some (s, ["text buffer is empty!"]) := by
  simp only [processLine, if_pos rfl, HandleCommand, parseCommand_dotP,
    runHandler, printH, h]
  rfl

/-- Witness for C9 at the freshly started state. -/
theorem c9_emptyPrintError_witness :
    processLine fsEmpty st0 ['.', 'p'] = some (st0, ["text buffer is empty!"]) :=
  c9_emptyPrintError fsEmpty st0 rfl

/-- C10: for every editor state, the new-document command `n` empties
the buffer and changes nothing else — the mode, the dirty flag, the
line-numbers flag and the associated filename all keep their previous
values; in particular the dirty flag is not reset and the filename is
not cleared. -/
theorem c10_newFrame (fs : FileSys) (s : EdState) :
    HandleCommand fs s ['.', 'n'] =
      .ok ({ mode := s.mode, buffer := [], changed := s.changed,
             lineNumbers := s.lineNumbers, filename := s.filename }, []) := rfl

end Ed
